import Mathlib

/-!
Shallow embedding of the whiteboard editor core of this repository: the
`WhiteboardEditor` component together with the `types.ts` data model
(`Whiteboard`, `WhiteboardContent`, `WhiteboardElement`, `Tool`).
Coordinates and times are rationals; React `useState` updates become
explicit state passing; `crypto.randomUUID()` becomes an externally
supplied fresh id.
-/

/-- A 2-D point `{x, y}` (client or document coordinates). -/
structure Point where
  x : ℚ
  y : ℚ
deriving DecidableEq

instance : Inhabited Point := ⟨⟨0, 0⟩⟩

/-- A `{width, height}` pair. -/
structure Size where
  width : ℚ
  height : ℚ
deriving DecidableEq

/-- The `Tool` string union of `types.ts` (with `ShapeType` inlined, as in
the source union) plus the extra tag `shape` that `WhiteboardElement.type`
allows; `handleMouseUp` stores `currentTool as any` into `type`, so the
runtime value space of the tag is the union of both string unions. -/
inductive Tool where
  | cursor | pen | highlighter | spray | calligraphy | eraser | text | sticky
  | fill | hand | delete | laser
  | rectangle | roundedRect | circle | triangle | arrow | line
  | shape
deriving DecidableEq

/-- `WhiteboardElement.style`. The optional text-decoration fields that no
editor code path and no claim touches (`fontWeight`, `fontStyle`,
`textDecoration`, `textAlign`) are omitted. -/
structure ElementStyle where
  color : String
  backgroundColor : String
  fontSize : Option ℚ
  fontFamily : Option String
  strokeWidth : Option ℚ
  opacity : Option ℚ
  fill : Option Bool
deriving DecidableEq

/-- `WhiteboardElement` of `types.ts`. The TS field `content : string`
holds `JSON.stringify` of the point path for stroke variants and is read
back with `JSON.parse` in `drawPath`; since that round-trip is the
identity on point lists, the embedding stores the typed list directly. -/
structure WhiteboardElement where
  id : String
  type : Tool
  shapeType : Option Tool
  position : Point
  size : Size
  content : List Point
  style : ElementStyle
  zIndex : ℕ
  timestamp : Option ℚ
deriving DecidableEq

/-- `WhiteboardContent` of `types.ts`. -/
structure WhiteboardContent where
  elements : List WhiteboardElement
  canvasSize : Size
  zoom : ℚ
  pan : Point
deriving DecidableEq

/-- The canvas geometry read inside `getMousePos`: the backing-store size
(`canvas.width/height`) and the displayed bounding rectangle
(`canvas.getBoundingClientRect()`). -/
structure CanvasGeom where
  canvasWidth : ℚ
  canvasHeight : ℚ
  rectLeft : ℚ
  rectTop : ℚ
  rectWidth : ℚ
  rectHeight : ℚ
deriving DecidableEq

/-- `getMousePos` of the editor: with `scaleX = canvas.width / rect.width`
and `scaleY = canvas.height / rect.height`, returns
`((clientX - rect.left) * scaleX - pan.x) / zoom` and likewise for `y`. -/
def getMousePos (g : CanvasGeom) (pan : Point) (zoom : ℚ)
    (clientX clientY : ℚ) : Point :=
  let scaleX := g.canvasWidth / g.rectWidth
  let scaleY := g.canvasHeight / g.rectHeight
  ⟨((clientX - g.rectLeft) * scaleX - pan.x) / zoom,
   ((clientY - g.rectTop) * scaleY - pan.y) / zoom⟩

/-- The renderer's forward transform from `redrawCanvas`:
`ctx.scale(zoom, zoom)` followed by `ctx.translate(pan.x, pan.y)` maps a
document point `p` to the device pixel `zoom * (p + pan)` (the canvas
current-transform matrix composes scale-then-translate as `S · T`). -/
def rendererScreen (zoom : ℚ) (pan : Point) (p : Point) : Point :=
  ⟨(p.x + pan.x) * zoom, (p.y + pan.y) * zoom⟩

/-- Modelled from the spec: the inverse mapping §4.2 mandates for input
handling, `docX = (sx*scaleX)/zoom - pan.x`, `docY = (sy*scaleY)/zoom - pan.y`
(screen relative to the canvas rectangle origin). Written from the spec's
words to be compared with `getMousePos` as translated from the source. -/
def specInverse (g : CanvasGeom) (pan : Point) (zoom : ℚ)
    (clientX clientY : ℚ) : Point :=
  let scaleX := g.canvasWidth / g.rectWidth
  let scaleY := g.canvasHeight / g.rectHeight
  ⟨(clientX - g.rectLeft) * scaleX / zoom - pan.x,
   (clientY - g.rectTop) * scaleY / zoom - pan.y⟩

/-- The `WhiteboardEditor` component state relevant to the claims: the
`useState` hooks `isDrawing`, `currentTool`, `currentColor`, `currentSize`,
`elements`, `history`, `historyIndex`, `zoom`, `pan`, `isPanning`,
`lastPoint`, `currentPath`. -/
structure EditorState where
  isDrawing : Bool
  currentTool : Tool
  currentColor : String
  currentSize : ℚ
  elements : List WhiteboardElement
  history : List (List WhiteboardElement)
  historyIndex : ℕ
  zoom : ℚ
  pan : Point
  isPanning : Bool
  lastPoint : Option Point
  currentPath : List Point
deriving DecidableEq

/-- The `useState` initializers of the component: tool `pen`, color
`#000000`, size 3, elements from `whiteboard.content.elements`, history
seeded with that one snapshot at index 0, zoom and pan from the content. -/
def initialState (wb : WhiteboardContent) : EditorState :=
  { isDrawing := false
    currentTool := Tool.pen
    currentColor := "#000000"
    currentSize := 3
    elements := wb.elements
    history := [wb.elements]
    historyIndex := 0
    zoom := wb.zoom
    pan := wb.pan
    isPanning := false
    lastPoint := none
    currentPath := [] }

/-- `addToHistory` of the editor: `history.slice(0, historyIndex + 1)`,
push a copy of `newElements`, set the pointer to the new last index. The
source leaves `elements` to its callers (they call `setElements` first),
so the state passed here already carries the new element list. -/
def addToHistory (st : EditorState) (newElements : List WhiteboardElement) :
    EditorState :=
  let newHistory := st.history.take (st.historyIndex + 1) ++ [newElements]
  { st with history := newHistory, historyIndex := newHistory.length - 1 }

/-- A committed edit exactly as the editor performs it:
`setElements(newElements)` followed by `addToHistory(newElements)`
(this is the calling pattern of `handleMouseUp` and `clearCanvas`). -/
def commit (st : EditorState) (els : List WhiteboardElement) : EditorState :=
  addToHistory { st with elements := els } els

/-- `undo` of the editor: `if (historyIndex > 0)` decrement the pointer and
load `history[historyIndex - 1]`; otherwise nothing happens. -/
def undo (st : EditorState) : EditorState :=
  if 0 < st.historyIndex then
    { st with historyIndex := st.historyIndex - 1,
              elements := st.history.getD (st.historyIndex - 1) [] }
  else st

/-- `redo` of the editor: `if (historyIndex < history.length - 1)` increment
the pointer and load `history[historyIndex + 1]`; otherwise nothing. -/
def redo (st : EditorState) : EditorState :=
  if st.historyIndex < st.history.length - 1 then
    { st with historyIndex := st.historyIndex + 1,
              elements := st.history.getD (st.historyIndex + 1) [] }
  else st

/-- `clearCanvas` of the editor: `setElements([]); addToHistory([])`. -/
def clearCanvas (st : EditorState) : EditorState :=
  commit st []

/-- `handleSave` of the editor: the updated `WhiteboardContent` handed to
the `onSave` persistence collaborator — `elements`, `zoom`, `pan` are the
current state, `canvasSize` the measured canvas size; the element list is
passed through without any filtering. -/
def handleSave (st : EditorState) (canvasSize : Size) : WhiteboardContent :=
  { elements := st.elements, canvasSize := canvasSize,
    zoom := st.zoom, pan := st.pan }

/-- The freehand-tool test of `handleMouseMove`:
`currentTool === 'pen' || 'highlighter' || 'spray' || 'calligraphy'`. -/
def isFreehand : Tool → Bool
  | Tool.pen => true
  | Tool.highlighter => true
  | Tool.spray => true
  | Tool.calligraphy => true
  | _ => false

/-- The live-preview stroke alpha of `handleMouseMove`:
`ctx.globalAlpha = currentTool === 'highlighter' ? 0.5 : 1`. -/
def previewAlpha (t : Tool) : ℚ :=
  if t = Tool.highlighter then 1/2 else 1

/-- `handleMouseDown`: convert the client position with `getMousePos`, set
`lastPoint`; tool `hand` starts panning, every other tool starts drawing
with the path seeded to `[pos]`. -/
def handleMouseDown (g : CanvasGeom) (st : EditorState)
    (clientX clientY : ℚ) : EditorState :=
  let pos := getMousePos g st.pan st.zoom clientX clientY
  if st.currentTool = Tool.hand then
    { st with lastPoint := some pos, isPanning := true }
  else
    { st with lastPoint := some pos, isDrawing := true, currentPath := [pos] }

/-- `handleMouseMove`: while panning (with an anchor) add the zoom-scaled
delta to `pan` and return early (the anchor is not updated — the source
`return`s before `setLastPoint`); otherwise, when drawing with a freehand
tool, append the converted position to `currentPath` (the live preview it
also paints is pure canvas output, its alpha is `previewAlpha`); in every
drawing branch `lastPoint` is set to the new position. -/
def handleMouseMove (g : CanvasGeom) (st : EditorState)
    (clientX clientY : ℚ) : EditorState :=
  let pos := getMousePos g st.pan st.zoom clientX clientY
  if st.isPanning = true ∧ st.lastPoint ≠ none then
    let lp := st.lastPoint.getD ⟨0, 0⟩
    { st with pan := ⟨st.pan.x + (pos.x - lp.x) * st.zoom,
                      st.pan.y + (pos.y - lp.y) * st.zoom⟩ }
  else if st.isDrawing = false ∨ st.lastPoint = none then st
  else if isFreehand st.currentTool = true then
    { st with currentPath := st.currentPath ++ [pos], lastPoint := some pos }
  else
    { st with lastPoint := some pos }

/-- `handleMouseUp` (also bound to `onMouseLeave`): end panning without any
commit; otherwise, when drawing and `currentPath.length > 1`, build the new
element (`type: currentTool as any`, `position: currentPath[0]`,
`size: {0,0}`, the path as content, style from the current color/size with
opacity 0.5 for the highlighter and 1 otherwise, `zIndex: elements.length`),
append it and commit via `addToHistory`; then reset the gesture state.
`crypto.randomUUID()` is modelled by the `freshId` argument. -/
def handleMouseUp (st : EditorState) (freshId : String) : EditorState :=
  if st.isPanning = true then
    { st with isPanning := false, lastPoint := none }
  else if st.isDrawing = false then st
  else
    let st1 :=
      if 1 < st.currentPath.length then
        let newElement : WhiteboardElement :=
          { id := freshId
            type := st.currentTool
            shapeType := none
            position := st.currentPath.headI
            size := ⟨0, 0⟩
            content := st.currentPath
            style :=
              { color := st.currentColor
                backgroundColor := "transparent"
                fontSize := none
                fontFamily := none
                strokeWidth := some st.currentSize
                opacity := some (if st.currentTool = Tool.highlighter then 1/2 else 1)
                fill := none }
            zIndex := st.elements.length
            timestamp := none }
        let newElements := st.elements ++ [newElement]
        addToHistory { st with elements := newElements } newElements
      else st
    { st1 with isDrawing := false, currentPath := [], lastPoint := none }

/-- `drawLaser`: returns `some a` when a filled circle is painted with
`globalAlpha = a`, `none` when the mark is older than the 3000 ms lifetime
and nothing is painted. JS `element.timestamp || now` treats a missing or
zero timestamp as `now`. -/
def drawLaser (now : ℚ) (e : WhiteboardElement) : Option ℚ :=
  let ts := match e.timestamp with
    | some t => if t = 0 then now else t
    | none => now
  let age := now - ts
  if 3000 < age then none
  else some (max 0 (1 - age / 3000))

/-- One history-affecting operation of the editor, as the claims range over
them: a committed edit (with its new element list), `undo`, or `redo`. -/
inductive HistOp where
  | commit (els : List WhiteboardElement)
  | undo
  | redo
deriving DecidableEq

/-- Apply one history operation to the editor state. -/
def applyHistOp (st : EditorState) : HistOp → EditorState
  | HistOp.commit els => commit st els
  | HistOp.undo => undo st
  | HistOp.redo => redo st

/-- Apply a finite sequence of history operations, left to right. -/
def applyHistOps (st : EditorState) (ops : List HistOp) : EditorState :=
  ops.foldl applyHistOp st

/-- `n`-fold `undo`. -/
def undoN : ℕ → EditorState → EditorState
  | 0, st => st
  | n + 1, st => undoN n (undo st)

/-- Apply a sequence of mouse-move events (client coordinates). -/
def applyMoves (g : CanvasGeom) (st : EditorState) (moves : List Point) :
    EditorState :=
  moves.foldl (fun s m => handleMouseMove g s m.x m.y) st

/-- The document-space path a freehand gesture records: the converted
down-point followed by the converted move points (pan and zoom do not
change while drawing, so one conversion applies throughout). -/
def gesturePath (g : CanvasGeom) (st : EditorState) (down : Point)
    (moves : List Point) : List Point :=
  getMousePos g st.pan st.zoom down.x down.y ::
    moves.map fun m => getMousePos g st.pan st.zoom m.x m.y

/-- The element `handleMouseUp` constructs at the end of a freehand gesture
that recorded at least two path points. -/
def gestureStroke (g : CanvasGeom) (st : EditorState) (freshId : String)
    (down : Point) (moves : List Point) : WhiteboardElement :=
  { id := freshId
    type := st.currentTool
    shapeType := none
    position := getMousePos g st.pan st.zoom down.x down.y
    size := ⟨0, 0⟩
    content := gesturePath g st down moves
    style :=
      { color := st.currentColor
        backgroundColor := "transparent"
        fontSize := none
        fontFamily := none
        strokeWidth := some st.currentSize
        opacity := some (if st.currentTool = Tool.highlighter then 1/2 else 1)
        fill := none }
    zIndex := st.elements.length
    timestamp := none }

/-! ### Concrete fixtures used by the counterexample-style evaluations
and by the witnesses. -/

/-- An empty whiteboard content: no elements, 800×600 canvas, zoom 1,
pan `(0,0)`. -/
def wb0 : WhiteboardContent :=
  { elements := [], canvasSize := ⟨800, 600⟩, zoom := 1, pan := ⟨0, 0⟩ }

/-- A canvas whose backing store matches its displayed rectangle exactly
(`scaleX = scaleY = 1`), placed at the viewport origin. -/
def g1 : CanvasGeom :=
  { canvasWidth := 800, canvasHeight := 600, rectLeft := 0, rectTop := 0,
    rectWidth := 800, rectHeight := 600 }

/-- A pen stroke spanning the segment from `(5,5)` to `(15,15)`. -/
def e0 : WhiteboardElement :=
  { id := "e0", type := Tool.pen, shapeType := none, position := ⟨5, 5⟩,
    size := ⟨0, 0⟩, content := [⟨5, 5⟩, ⟨15, 15⟩],
    style := { color := "#000000", backgroundColor := "transparent",
               fontSize := none, fontFamily := none, strokeWidth := some 3,
               opacity := some 1, fill := none },
    zIndex := 0, timestamp := none }

/-- A laser mark at `(1,2)` stamped at time 1000. -/
def laserE : WhiteboardElement :=
  { id := "l1", type := Tool.laser, shapeType := none, position := ⟨1, 2⟩,
    size := ⟨0, 0⟩, content := [],
    style := { color := "#ff0000", backgroundColor := "transparent",
               fontSize := none, fontFamily := none, strokeWidth := none,
               opacity := none, fill := none },
    zIndex := 0, timestamp := some 1000 }

/-- Freshly opened empty editor with the rectangle shape tool selected. -/
def stRect : EditorState :=
  { initialState wb0 with currentTool := Tool.rectangle }

/-- Editor opened on a whiteboard holding the stroke `e0`, with the eraser
tool selected. -/
def stEraser : EditorState :=
  { initialState { wb0 with elements := [e0] } with currentTool := Tool.eraser }

/-- Editor opened on a whiteboard holding only the laser mark `laserE`. -/
def stLaser : EditorState :=
  initialState { wb0 with elements := [laserE] }

/-- C1: the input mapping is not the renderer's inverse. At zoom 2,
pan `(10,0)`, `scaleX = scaleY = 1`, the screen point `(0,0)` (device
pixel 0) is mapped by `getMousePos` to document x `-5`; pushing that
document point back through the renderer transform `scale(zoom)` then
`translate(pan)` lands on device pixel 10, not 0, so the round-trip fails;
the inverse the spec mandates would give document x `-10`, which does
round-trip. -/
theorem getMousePos_not_renderer_inverse :
    getMousePos g1 ⟨10, 0⟩ 2 0 0 = ⟨-5, 0⟩ ∧
    rendererScreen 2 ⟨10, 0⟩ (getMousePos g1 ⟨10, 0⟩ 2 0 0) = ⟨10, 0⟩ ∧
    ((10 : ℚ) ≠ 0) ∧
    specInverse g1 ⟨10, 0⟩ 2 0 0 = ⟨-10, 0⟩ ∧
    rendererScreen 2 ⟨10, 0⟩ (specInverse g1 ⟨10, 0⟩ 2 0 0) = ⟨0, 0⟩ ∧
    getMousePos g1 ⟨10, 0⟩ 2 0 0 ≠ specInverse g1 ⟨10, 0⟩ 2 0 0 := by
  have h1 : getMousePos g1 ⟨10, 0⟩ 2 0 0 = ⟨-5, 0⟩ := by
    norm_num [getMousePos, g1]
  have h4 : specInverse g1 ⟨10, 0⟩ 2 0 0 = ⟨-10, 0⟩ := by
    norm_num [specInverse, g1]
  refine ⟨h1, ?_, by norm_num, h4, ?_, ?_⟩
  · rw [h1]; norm_num [rendererScreen]
  · rw [h4]; norm_num [rendererScreen]
  · rw [h1, h4]; simp [Point.mk.injEq]

/-- C5: a rectangle-tool gesture from document point `(10,10)` to
`(110,60)` (zoom 1, pan 0, so client = document coordinates) commits no
shape element at all: `handleMouseMove` records path points only for the
four freehand tools, so the path stays at one point and `handleMouseUp`
discards the gesture — elements, history and the pointer are unchanged. -/
theorem rectangleGestureCommitsNothing :
    handleMouseUp
        (handleMouseMove g1 (handleMouseDown g1 stRect 10 10) 110 60)
        "r1" =
      { stRect with lastPoint := none, isDrawing := false, currentPath := [] } ∧
    (handleMouseUp
        (handleMouseMove g1 (handleMouseDown g1 stRect 10 10) 110 60)
        "r1").elements = [] ∧
    (handleMouseUp
        (handleMouseMove g1 (handleMouseDown g1 stRect 10 10) 110 60)
        "r1").history = [[]] ∧
    (handleMouseUp
        (handleMouseMove g1 (handleMouseDown g1 stRect 10 10) 110 60)
        "r1").historyIndex = 0 := by
  refine ⟨?_, ?_, ?_, ?_⟩ <;>
    simp [handleMouseUp, handleMouseMove, handleMouseDown, stRect,
      initialState, wb0, isFreehand, addToHistory]

/-- C6: an eraser drag across the stroke `e0` (down at `(10,10)`, move to
`(12,12)`, both on the segment's bounding box, then up) removes nothing
and commits nothing: the handlers contain no eraser branch, so the element
list, the history and the pointer are exactly as before. -/
theorem eraserRemovesNothing :
    (handleMouseUp
        (handleMouseMove g1 (handleMouseDown g1 stEraser 10 10) 12 12)
        "x1").elements = [e0] ∧
    (handleMouseUp
        (handleMouseMove g1 (handleMouseDown g1 stEraser 10 10) 12 12)
        "x1").history = [[e0]] ∧
    (handleMouseUp
        (handleMouseMove g1 (handleMouseDown g1 stEraser 10 10) 12 12)
        "x1").historyIndex = 0 := by
  refine ⟨?_, ?_, ?_⟩ <;>
    simp [handleMouseUp, handleMouseMove, handleMouseDown, stEraser,
      initialState, wb0, isFreehand, addToHistory]

/-- C7: `handleSave` hands the persistence collaborator the element list
unfiltered — a laser element in memory is persisted verbatim instead of
being excluded. -/
theorem handleSaveKeepsLaser :
    (handleSave stLaser ⟨800, 600⟩).elements = [laserE] ∧
    laserE.type = Tool.laser ∧
    ¬ (∀ e ∈ (handleSave stLaser ⟨800, 600⟩).elements, e.type ≠ Tool.laser) := by
  refine ⟨rfl, rfl, ?_⟩
  intro h
  exact h laserE (by simp [handleSave, stLaser, initialState]) rfl

/-! ### History manager lemmas shared by the history claims. -/

/-- `undo` never changes the history array. -/
theorem undo_history (st : EditorState) : (undo st).history = st.history := by
  unfold undo; split <;> rfl

/-- `undo` decrements the pointer when it is positive. -/
theorem undo_historyIndex (st : EditorState) (h : 0 < st.historyIndex) :
    (undo st).historyIndex = st.historyIndex - 1 := by
  unfold undo; rw [if_pos h]

/-- `addToHistory` always restores the pointer-in-range invariant. -/
theorem addToHistory_inv (st : EditorState) (els : List WhiteboardElement) :
    (addToHistory st els).historyIndex < (addToHistory st els).history.length := by
  simp [addToHistory]

/-- `undo` preserves the pointer-in-range invariant. -/
theorem undo_inv (st : EditorState) (h : st.historyIndex < st.history.length) :
    (undo st).historyIndex < (undo st).history.length := by
  unfold undo
  split
  · show st.historyIndex - 1 < st.history.length
    omega
  · exact h

/-- `redo` preserves the pointer-in-range invariant. -/
theorem redo_inv (st : EditorState) (h : st.historyIndex < st.history.length) :
    (redo st).historyIndex < (redo st).history.length := by
  unfold redo
  split
  next hc =>
    show st.historyIndex + 1 < st.history.length
    omega
  next => exact h

/-- `undo` at pointer 0 is the identity on the whole state. -/
theorem undo_noop (st : EditorState) (h : st.historyIndex = 0) : undo st = st := by
  unfold undo; rw [if_neg]; omega

/-- `redo` at the last index is the identity on the whole state. -/
theorem redo_noop (st : EditorState)
    (h : st.historyIndex = st.history.length - 1) : redo st = st := by
  unfold redo; rw [if_neg]; omega

/-- Every finite sequence of history operations preserves the
pointer-in-range invariant. -/
theorem applyHistOps_inv (ops : List HistOp) (st : EditorState)
    (h : st.historyIndex < st.history.length) :
    (applyHistOps st ops).historyIndex < (applyHistOps st ops).history.length := by
  induction ops generalizing st with
  | nil => exact h
  | cons op ops ih =>
    have hstep : applyHistOps st (op :: ops) = applyHistOps (applyHistOp st op) ops := rfl
    rw [hstep]
    apply ih
    cases op with
    | commit els => exact addToHistory_inv _ els
    | undo => exact undo_inv st h
    | redo => exact redo_inv st h

/-- C2: starting from the initial one-snapshot history with pointer 0,
after every finite sequence of commits (`addToHistory`), `undo` and `redo`
the invariant `0 ≤ historyIndex < history.length` holds (the lower bound
is inherent to `ℕ`); moreover `undo` at pointer 0 and `redo` at the last
index leave the whole state — pointer and current element list included —
unchanged. -/
theorem historyInvariantAllOps (wb : WhiteboardContent) (ops : List HistOp) :
    (applyHistOps (initialState wb) ops).historyIndex <
      (applyHistOps (initialState wb) ops).history.length ∧
    ((applyHistOps (initialState wb) ops).historyIndex = 0 →
      undo (applyHistOps (initialState wb) ops) = applyHistOps (initialState wb) ops) ∧
    ((applyHistOps (initialState wb) ops).historyIndex =
        (applyHistOps (initialState wb) ops).history.length - 1 →
      redo (applyHistOps (initialState wb) ops) = applyHistOps (initialState wb) ops) :=
  ⟨applyHistOps_inv ops _ (by simp [initialState]),
   fun h => undo_noop _ h,
   fun h => redo_noop _ h⟩

/-- Witness for C2: after a commit followed by an undo the pointer is 0 and
sits inside the two-entry history, and `undo` there is a no-op. -/
theorem historyInvariantAllOps_w :
    (applyHistOps (initialState wb0) [HistOp.commit [e0], HistOp.undo]).historyIndex <
      (applyHistOps (initialState wb0) [HistOp.commit [e0], HistOp.undo]).history.length ∧
    undo (applyHistOps (initialState wb0) [HistOp.commit [e0], HistOp.undo]) =
      applyHistOps (initialState wb0) [HistOp.commit [e0], HistOp.undo] := by
  have h := historyInvariantAllOps wb0 [HistOp.commit [e0], HistOp.undo]
  exact ⟨h.1, h.2.1 (by simp [applyHistOps, applyHistOp, commit, addToHistory,
    undo, initialState, wb0])⟩

/-- `undoN` never changes the history array. -/
theorem undoN_history (n : ℕ) (st : EditorState) :
    (undoN n st).history = st.history := by
  induction n generalizing st with
  | zero => rfl
  | succ n ih => rw [undoN, ih, undo_history]

/-- `n` undos subtract `n` from the pointer when `n` is within range. -/
theorem undoN_historyIndex (n : ℕ) (st : EditorState)
    (hn : n ≤ st.historyIndex) :
    (undoN n st).historyIndex = st.historyIndex - n := by
  induction n generalizing st with
  | zero => rfl
  | succ n ih =>
    have h1 : (undo st).historyIndex = st.historyIndex - 1 :=
      undo_historyIndex st (by omega)
    have h2 : n ≤ (undo st).historyIndex := by rw [h1]; omega
    rw [undoN, ih (undo st) h2, h1]
    omega

/-- An editor state right after a commit: open an empty whiteboard and
commit the single stroke `e0` (history `[[], [e0]]`, pointer 1). -/
def stCommitted : EditorState := commit (initialState wb0) [e0]

/-- C3: `addToHistory(newElements)` replaces the history with
`history[0..historyIndex]` followed by `newElements`, moves the pointer to
the new last index and installs `newElements` as the current element list
(stated for every state, the first conjunct); committing after `n` undos
from a just-committed state (pointer at the last index) discards the `n`
previously redoable entries — the history holds `length - n + 1` entries
afterwards — and a subsequent `redo` is a no-op. -/
theorem commitTruncation (st : EditorState) (els : List WhiteboardElement)
    (n : ℕ) (hInv : st.historyIndex < st.history.length)
    (hTop : st.historyIndex = st.history.length - 1)
    (hn : n ≤ st.historyIndex) :
    (∀ s : EditorState, ∀ e : List WhiteboardElement,
      (commit s e).history = s.history.take (s.historyIndex + 1) ++ [e] ∧
      (commit s e).historyIndex = (commit s e).history.length - 1 ∧
      (commit s e).elements = e) ∧
    (commit (undoN n st) els).history.length + n = st.history.length + 1 ∧
    redo (commit (undoN n st) els) = commit (undoN n st) els := by
  refine ⟨fun s e => ⟨rfl, rfl, rfl⟩, ?_, ?_⟩
  · have h1 : (commit (undoN n st) els).history =
        st.history.take (st.historyIndex - n + 1) ++ [els] := by
      show (undoN n st).history.take ((undoN n st).historyIndex + 1) ++ [els] = _
      rw [undoN_history, undoN_historyIndex n st hn]
    rw [h1]
    simp [List.length_take, List.length_append]
    omega
  · exact redo_noop _ rfl

/-- Witness for C3: from the two-entry history of `stCommitted`, one undo
followed by a commit leaves a two-entry history (the redoable entry is
discarded), `redo` afterwards is a no-op, and the general commit shape
holds at `stCommitted`. -/
theorem commitTruncation_w :
    (commit (undoN 1 stCommitted) []).history.length + 1 =
      stCommitted.history.length + 1 ∧
    redo (commit (undoN 1 stCommitted) []) = commit (undoN 1 stCommitted) [] ∧
    (commit stCommitted [e0]).history =
      stCommitted.history.take (stCommitted.historyIndex + 1) ++ [[e0]] := by
  have h := commitTruncation stCommitted [] 1
    (by simp [stCommitted, commit, addToHistory, initialState, wb0])
    (by simp [stCommitted, commit, addToHistory, initialState, wb0])
    (by simp [stCommitted, commit, addToHistory, initialState, wb0])
  exact ⟨h.2.1, h.2.2, (h.1 stCommitted [e0]).1⟩

/-! ### Input state machine lemmas shared by the gesture claims. -/

/-- A freehand tool is never the `hand` tool. -/
theorem isFreehand_ne_hand (t : Tool) (h : isFreehand t = true) :
    ¬ t = Tool.hand := by
  cases t <;> simp_all [isFreehand]

/-- `handleMouseDown` with a non-`hand` tool starts a drawing gesture. -/
theorem handleMouseDown_draw (g : CanvasGeom) (st : EditorState)
    (cx cy : ℚ) (hT : ¬ st.currentTool = Tool.hand) :
    handleMouseDown g st cx cy =
      { st with lastPoint := some (getMousePos g st.pan st.zoom cx cy),
                isDrawing := true,
                currentPath := [getMousePos g st.pan st.zoom cx cy] } := by
  unfold handleMouseDown
  simp [hT]

/-- `handleMouseDown` with the `hand` tool starts panning. -/
theorem handleMouseDown_pan (g : CanvasGeom) (st : EditorState)
    (cx cy : ℚ) (hT : st.currentTool = Tool.hand) :
    handleMouseDown g st cx cy =
      { st with lastPoint := some (getMousePos g st.pan st.zoom cx cy),
                isPanning := true } := by
  unfold handleMouseDown
  simp [hT]

/-- A mouse move while drawing with a freehand tool appends the converted
position to the path and moves `lastPoint` there. -/
theorem handleMouseMove_drawing (g : CanvasGeom) (st : EditorState)
    (cx cy : ℚ) (lp : Point)
    (hP : st.isPanning = false) (hD : st.isDrawing = true)
    (hL : st.lastPoint = some lp) (hT : isFreehand st.currentTool = true) :
    handleMouseMove g st cx cy =
      { st with
        currentPath := st.currentPath ++ [getMousePos g st.pan st.zoom cx cy],
        lastPoint := some (getMousePos g st.pan st.zoom cx cy) } := by
  unfold handleMouseMove
  simp [hP, hD, hL, hT]

/-- A sequence of mouse moves while drawing with a freehand tool appends
exactly the converted move positions to the path and keeps some anchor. -/
theorem applyMoves_drawing (g : CanvasGeom) (moves : List Point)
    (st : EditorState) (lp : Point)
    (hP : st.isPanning = false) (hD : st.isDrawing = true)
    (hL : st.lastPoint = some lp) (hT : isFreehand st.currentTool = true) :
    ∃ q, applyMoves g st moves =
      { st with
        currentPath := st.currentPath ++
          moves.map (fun m => getMousePos g st.pan st.zoom m.x m.y),
        lastPoint := some q } := by
  induction moves generalizing st lp with
  | nil =>
    refine ⟨lp, ?_⟩
    rw [applyMoves, List.foldl_nil, List.map_nil, List.append_nil, ← hL]
  | cons m ms ih =>
    rw [show applyMoves g st (m :: ms) =
          applyMoves g (handleMouseMove g st m.x m.y) ms from rfl,
        handleMouseMove_drawing g st m.x m.y lp hP hD hL hT]
    obtain ⟨q, hq⟩ := ih
      { st with
        currentPath := st.currentPath ++ [getMousePos g st.pan st.zoom m.x m.y],
        lastPoint := some (getMousePos g st.pan st.zoom m.x m.y) }
      (getMousePos g st.pan st.zoom m.x m.y) hP hD rfl hT
    refine ⟨q, ?_⟩
    rw [hq]
    simp

/-- The element `handleMouseUp` builds from the current state when the
path has at least two points. -/
def upElement (st : EditorState) (freshId : String) : WhiteboardElement :=
  { id := freshId
    type := st.currentTool
    shapeType := none
    position := st.currentPath.headI
    size := ⟨0, 0⟩
    content := st.currentPath
    style :=
      { color := st.currentColor
        backgroundColor := "transparent"
        fontSize := none
        fontFamily := none
        strokeWidth := some st.currentSize
        opacity := some (if st.currentTool = Tool.highlighter then 1/2 else 1)
        fill := none }
    zIndex := st.elements.length
    timestamp := none }

/-- `handleMouseUp` while panning only clears the panning flags. -/
theorem handleMouseUp_pan (st : EditorState) (freshId : String)
    (hP : st.isPanning = true) :
    handleMouseUp st freshId =
      { st with isPanning := false, lastPoint := none } := by
  unfold handleMouseUp
  simp [hP]

/-- `handleMouseUp` while drawing with at most one recorded point discards
the gesture: nothing is appended and nothing is committed. -/
theorem handleMouseUp_discard (st : EditorState) (freshId : String)
    (hP : st.isPanning = false) (hD : st.isDrawing = true)
    (hlen : ¬ 1 < st.currentPath.length) :
    handleMouseUp st freshId =
      { st with isDrawing := false, currentPath := [], lastPoint := none } := by
  unfold handleMouseUp
  simp [hP, hD, hlen]

/-- `handleMouseUp` while drawing with at least two recorded points appends
`upElement` and commits it through `addToHistory`. -/
theorem handleMouseUp_commit (st : EditorState) (freshId : String)
    (hP : st.isPanning = false) (hD : st.isDrawing = true)
    (hlen : 1 < st.currentPath.length) :
    handleMouseUp st freshId =
      { addToHistory { st with elements := st.elements ++ [upElement st freshId] }
          (st.elements ++ [upElement st freshId]) with
        isDrawing := false, currentPath := [], lastPoint := none } := by
  unfold handleMouseUp upElement
  simp [hP, hD, hlen]

/-- A complete freehand gesture with at least one move: the editor appends
exactly the stroke element built from the recorded path and commits the
new element list through `addToHistory`, then resets the gesture state. -/
theorem freehandGestureResult (g : CanvasGeom) (st : EditorState)
    (freshId : String) (down : Point) (moves : List Point)
    (hP : st.isPanning = false) (hT : isFreehand st.currentTool = true)
    (hm : moves ≠ []) :
    handleMouseUp (applyMoves g (handleMouseDown g st down.x down.y) moves)
        freshId =
      { addToHistory
          { st with elements :=
              st.elements ++ [gestureStroke g st freshId down moves] }
          (st.elements ++ [gestureStroke g st freshId down moves]) with
        isDrawing := false, currentPath := [], lastPoint := none } := by
  have hne := isFreehand_ne_hand st.currentTool hT
  rw [handleMouseDown_draw g st down.x down.y hne]
  obtain ⟨q, hq⟩ := applyMoves_drawing g moves
    { st with lastPoint := some (getMousePos g st.pan st.zoom down.x down.y),
              isDrawing := true,
              currentPath := [getMousePos g st.pan st.zoom down.x down.y] }
    (getMousePos g st.pan st.zoom down.x down.y) hP rfl rfl hT
  rw [hq]
  rw [handleMouseUp_commit _ freshId ?hp ?hd ?hlen]
  case hp => exact hP
  case hd => rfl
  case hlen => simpa using List.length_pos.mpr hm
  simp [upElement, gestureStroke, gesturePath, addToHistory]

/-- C4: a freehand gesture (pointer-down, moves, pointer-up) with no move
— hence at most one recorded path point — appends no element and commits
nothing: elements, history and the pointer are unchanged; with at least
one move — hence two or more recorded points — exactly one new element is
appended and exactly one history entry is committed, the pointer moving to
the new last index. -/
theorem strokeCommitThreshold (g : CanvasGeom) (st : EditorState)
    (freshId : String) (down : Point) (moves : List Point)
    (hP : st.isPanning = false) (hT : isFreehand st.currentTool = true) :
    (moves = [] →
      (handleMouseUp (applyMoves g (handleMouseDown g st down.x down.y) moves)
          freshId).elements = st.elements ∧
      (handleMouseUp (applyMoves g (handleMouseDown g st down.x down.y) moves)
          freshId).history = st.history ∧
      (handleMouseUp (applyMoves g (handleMouseDown g st down.x down.y) moves)
          freshId).historyIndex = st.historyIndex) ∧
    (moves ≠ [] →
      (handleMouseUp (applyMoves g (handleMouseDown g st down.x down.y) moves)
          freshId).elements =
        st.elements ++ [gestureStroke g st freshId down moves] ∧
      (handleMouseUp (applyMoves g (handleMouseDown g st down.x down.y) moves)
          freshId).history =
        st.history.take (st.historyIndex + 1) ++
          [st.elements ++ [gestureStroke g st freshId down moves]] ∧
      (handleMouseUp (applyMoves g (handleMouseDown g st down.x down.y) moves)
          freshId).historyIndex =
        (handleMouseUp (applyMoves g (handleMouseDown g st down.x down.y) moves)
          freshId).history.length - 1) := by
  constructor
  · intro hnil
    subst hnil
    rw [handleMouseDown_draw g st down.x down.y (isFreehand_ne_hand _ hT)]
    rw [handleMouseUp_discard _ freshId ?hp ?hd ?hlen]
    case hp => exact hP
    case hd => rfl
    case hlen => simp [applyMoves]
    exact ⟨rfl, rfl, rfl⟩
  · intro hm
    rw [freehandGestureResult g st freshId down moves hP hT hm]
    exact ⟨rfl, rfl, rfl⟩

/-- Witness for C4: on a fresh empty whiteboard with the pen tool, the
gesture down `(10,10)`, move `(20,20)`, up appends exactly the recorded
stroke and pushes exactly one history entry. -/
theorem strokeCommitThreshold_w :
    (handleMouseUp (applyMoves g1 (handleMouseDown g1 (initialState wb0) 10 10)
        [⟨20, 20⟩]) "s1").elements =
      (initialState wb0).elements ++
        [gestureStroke g1 (initialState wb0) "s1" ⟨10, 10⟩ [⟨20, 20⟩]] ∧
    (handleMouseUp (applyMoves g1 (handleMouseDown g1 (initialState wb0) 10 10)
        [⟨20, 20⟩]) "s1").history =
      (initialState wb0).history.take ((initialState wb0).historyIndex + 1) ++
        [(initialState wb0).elements ++
          [gestureStroke g1 (initialState wb0) "s1" ⟨10, 10⟩ [⟨20, 20⟩]]] ∧
    (handleMouseUp (applyMoves g1 (handleMouseDown g1 (initialState wb0) 10 10)
        [⟨20, 20⟩]) "s1").historyIndex =
      (handleMouseUp (applyMoves g1 (handleMouseDown g1 (initialState wb0) 10 10)
        [⟨20, 20⟩]) "s1").history.length - 1 :=
  (strokeCommitThreshold g1 (initialState wb0) "s1" ⟨10, 10⟩ [⟨20, 20⟩]
    rfl rfl).2 (by simp)

/-- C10: the element committed by a freehand gesture carries
`style.opacity` equal to the live-preview alpha of the same tool: 0.5 for
the highlighter and 1 for pen, spray and calligraphy. -/
theorem freehandOpacityMatchesPreview (g : CanvasGeom) (st : EditorState)
    (freshId : String) (down : Point) (moves : List Point)
    (hP : st.isPanning = false) (hT : isFreehand st.currentTool = true)
    (hm : moves ≠ []) :
    ∃ e, (handleMouseUp (applyMoves g (handleMouseDown g st down.x down.y)
        moves) freshId).elements = st.elements ++ [e] ∧
      e.style.opacity = some (previewAlpha st.currentTool) ∧
      (st.currentTool = Tool.highlighter → e.style.opacity = some (1/2)) ∧
      (st.currentTool = Tool.pen ∨ st.currentTool = Tool.spray ∨
          st.currentTool = Tool.calligraphy → e.style.opacity = some 1) := by
  refine ⟨gestureStroke g st freshId down moves, ?_, ?_, ?_, ?_⟩
  · rw [freehandGestureResult g st freshId down moves hP hT hm]
    rfl
  · simp [gestureStroke, previewAlpha]
  · intro h
    simp [gestureStroke, h]
  · intro h
    have hne : ¬ st.currentTool = Tool.highlighter := by
      rcases h with h | h | h <;> rw [h] <;> simp
    simp [gestureStroke, hne]

/-- Fresh empty editor with the highlighter selected. -/
def stHighlighter : EditorState :=
  { initialState wb0 with currentTool := Tool.highlighter }

/-- Witness for C10: a highlighter gesture commits an element whose
opacity is the preview alpha, namely 0.5. -/
theorem freehandOpacityMatchesPreview_w :
    ∃ e, (handleMouseUp (applyMoves g1 (handleMouseDown g1 stHighlighter 10 10)
        [⟨30, 30⟩]) "h1").elements = stHighlighter.elements ++ [e] ∧
      e.style.opacity = some (previewAlpha stHighlighter.currentTool) ∧
      e.style.opacity = some (1/2) := by
  obtain ⟨e, h1, h2, h3, h4⟩ := freehandOpacityMatchesPreview g1 stHighlighter
    "h1" ⟨10, 10⟩ [⟨30, 30⟩] rfl rfl (by simp)
  exact ⟨e, h1, h2, h3 rfl⟩

/-- `handleMouseMove` never touches the element list, the history, the
pointer, the gesture flags, the tool, the style selection or the zoom. -/
theorem handleMouseMove_keeps (g : CanvasGeom) (st : EditorState)
    (cx cy : ℚ) :
    (handleMouseMove g st cx cy).elements = st.elements ∧
    (handleMouseMove g st cx cy).history = st.history ∧
    (handleMouseMove g st cx cy).historyIndex = st.historyIndex ∧
    (handleMouseMove g st cx cy).isPanning = st.isPanning ∧
    (handleMouseMove g st cx cy).isDrawing = st.isDrawing ∧
    (handleMouseMove g st cx cy).currentTool = st.currentTool ∧
    (handleMouseMove g st cx cy).currentColor = st.currentColor ∧
    (handleMouseMove g st cx cy).currentSize = st.currentSize ∧
    (handleMouseMove g st cx cy).zoom = st.zoom := by
  unfold handleMouseMove
  repeat' split
  all_goals simp

/-- `applyMoves` never touches the element list, the history, the pointer,
the gesture flags, the tool, the style selection or the zoom. -/
theorem applyMoves_keeps (g : CanvasGeom) (moves : List Point)
    (st : EditorState) :
    (applyMoves g st moves).elements = st.elements ∧
    (applyMoves g st moves).history = st.history ∧
    (applyMoves g st moves).historyIndex = st.historyIndex ∧
    (applyMoves g st moves).isPanning = st.isPanning ∧
    (applyMoves g st moves).isDrawing = st.isDrawing ∧
    (applyMoves g st moves).currentTool = st.currentTool ∧
    (applyMoves g st moves).currentColor = st.currentColor ∧
    (applyMoves g st moves).currentSize = st.currentSize ∧
    (applyMoves g st moves).zoom = st.zoom := by
  induction moves generalizing st with
  | nil => exact ⟨rfl, rfl, rfl, rfl, rfl, rfl, rfl, rfl, rfl⟩
  | cons m ms ih =>
    obtain ⟨k1, k2, k3, k4, k5, k6, k7, k8, k9⟩ :=
      handleMouseMove_keeps g st m.x m.y
    obtain ⟨j1, j2, j3, j4, j5, j6, j7, j8, j9⟩ :=
      ih (handleMouseMove g st m.x m.y)
    exact ⟨j1.trans k1, j2.trans k2, j3.trans k3, j4.trans k4, j5.trans k5,
      j6.trans k6, j7.trans k7, j8.trans k8, j9.trans k9⟩

/-- C9: a complete pan gesture (pointer-down with the `hand` tool, any
number of moves, pointer-up or pointer-leave) changes only the pan offset
and the transient gesture flags: elements, history, pointer, zoom, tool
and style selection are identical before and after, and no history entry
is committed. -/
theorem panGestureFrame (g : CanvasGeom) (st : EditorState)
    (freshId : String) (down : Point) (moves : List Point)
    (hT : st.currentTool = Tool.hand) :
    (handleMouseUp (applyMoves g (handleMouseDown g st down.x down.y) moves)
        freshId).elements = st.elements ∧
    (handleMouseUp (applyMoves g (handleMouseDown g st down.x down.y) moves)
        freshId).history = st.history ∧
    (handleMouseUp (applyMoves g (handleMouseDown g st down.x down.y) moves)
        freshId).historyIndex = st.historyIndex ∧
    (handleMouseUp (applyMoves g (handleMouseDown g st down.x down.y) moves)
        freshId).zoom = st.zoom ∧
    (handleMouseUp (applyMoves g (handleMouseDown g st down.x down.y) moves)
        freshId).currentTool = st.currentTool ∧
    (handleMouseUp (applyMoves g (handleMouseDown g st down.x down.y) moves)
        freshId).currentColor = st.currentColor ∧
    (handleMouseUp (applyMoves g (handleMouseDown g st down.x down.y) moves)
        freshId).currentSize = st.currentSize ∧
    (handleMouseUp (applyMoves g (handleMouseDown g st down.x down.y) moves)
        freshId).isDrawing = st.isDrawing ∧
    (handleMouseUp (applyMoves g (handleMouseDown g st down.x down.y) moves)
        freshId).isPanning = false := by
  rw [handleMouseDown_pan g st down.x down.y hT]
  obtain ⟨j1, j2, j3, j4, j5, j6, j7, j8, j9⟩ := applyMoves_keeps g moves
    { st with lastPoint := some (getMousePos g st.pan st.zoom down.x down.y),
              isPanning := true }
  rw [handleMouseUp_pan _ freshId j4]
  exact ⟨j1, j2, j3, j9, j6, j7, j8, j5, rfl⟩

/-- Fresh empty editor with the `hand` tool selected. -/
def stHand : EditorState :=
  { initialState wb0 with currentTool := Tool.hand }

/-- Witness for C9: a concrete pan gesture on `stHand` leaves elements,
history, pointer and zoom untouched. -/
theorem panGestureFrame_w :
    (handleMouseUp (applyMoves g1 (handleMouseDown g1 stHand 0 0) [⟨5, 5⟩])
        "p1").elements = stHand.elements ∧
    (handleMouseUp (applyMoves g1 (handleMouseDown g1 stHand 0 0) [⟨5, 5⟩])
        "p1").history = stHand.history ∧
    (handleMouseUp (applyMoves g1 (handleMouseDown g1 stHand 0 0) [⟨5, 5⟩])
        "p1").historyIndex = stHand.historyIndex := by
  obtain ⟨h1, h2, h3, h4, h5, h6, h7, h8, h9⟩ :=
    panGestureFrame g1 stHand "p1" ⟨0, 0⟩ [⟨5, 5⟩] rfl
  exact ⟨h1, h2, h3⟩

/-- C8: for a laser element stamped at `t ≠ 0`, the renderer paints
nothing once the age `now - t` exceeds the 3000 ms lifetime; for an age
strictly between 0 and 3000 ms it paints a filled circle with alpha
`1 - age/3000`, a value strictly between 0 and 1 (linear in the age). -/
theorem laserFade (now t : ℚ) (e : WhiteboardElement)
    (he : e.timestamp = some t) (ht : t ≠ 0) :
    (3000 < now - t → drawLaser now e = none) ∧
    (0 < now - t → now - t < 3000 →
      drawLaser now e = some (1 - (now - t) / 3000) ∧
      0 < 1 - (now - t) / 3000 ∧ 1 - (now - t) / 3000 < 1) := by
  have hts : drawLaser now e =
      if 3000 < now - t then none
      else some (max 0 (1 - (now - t) / 3000)) := by
    simp [drawLaser, he, ht]
  constructor
  · intro h
    rw [hts, if_pos h]
  · intro h1 h2
    have hlt : (now - t) / 3000 < 1 := by
      rw [div_lt_one (by norm_num)]
      exact h2
    have hpos : 0 < (now - t) / 3000 := by positivity
    rw [hts, if_neg (by linarith)]
    refine ⟨?_, by linarith, by linarith⟩
    congr 1
    rw [max_eq_right]
    linarith

/-- Witness for C8: the mark `laserE` (stamped 1000) paints nothing at
`now = 6000` (age 5000 ms) and paints with alpha `2/3`, strictly between
0 and 1, at `now = 2000` (age 1000 ms). -/
theorem laserFade_w :
    drawLaser 6000 laserE = none ∧
    drawLaser 2000 laserE = some (1 - (2000 - 1000) / 3000) ∧
    0 < 1 - ((2000 : ℚ) - 1000) / 3000 ∧
    1 - ((2000 : ℚ) - 1000) / 3000 < 1 := by
  have h1 := laserFade 6000 1000 laserE rfl (by norm_num)
  have h2 := laserFade 2000 1000 laserE rfl (by norm_num)
  obtain ⟨ha, hb, hc⟩ := h2.2 (by norm_num) (by norm_num)
  exact ⟨h1.1 (by norm_num), ha, hb, hc⟩
